import Mathlib

/-! EKSReliabilityDashboard: request instrumentation and fault-injection handlers.

A shallow embedding of `app/handlers/debug.go`, `app/handlers/log.go` and
`app/middleware/logging.go`.

* Go `int` is the 64-bit machine integer: values are `Int`, and arithmetic that can
  overflow goes through `wrapInt64`.
* A handler is embedded as the sequence of effects it performs on its
  `http.ResponseWriter`, the logger and the scheduler, together with the way it ends
  (normal return or panic).
* Process-wide state (`leakedMemory`, the Prometheus collectors) is passed explicitly.
-/

namespace EKS

/-! ## Go machine integers -/

/-- Two's-complement wrap of a mathematical integer into Go's 64-bit `int`. -/
def wrapInt64 (x : Int) : Int := (x + 2 ^ 63) % 2 ^ 64 - 2 ^ 63

/-- Largest value of `int64`. -/
def maxInt64 : Int := 2 ^ 63 - 1

/-- Smallest value of `int64`. -/
def minInt64 : Int := -(2 ^ 63)

/-- Saturation into the `int64` range, as `time.Time.Sub` does for durations. -/
def satInt64 (x : Int) : Int :=
  if x > maxInt64 then maxInt64 else if x < minInt64 then minInt64 else x

/-! ## `strconv.Atoi` (standard library, base 10, 64-bit `int`) -/

/-- Value of an ASCII decimal digit. -/
def digitOf (c : Char) : Option Nat :=
  if 48 ≤ c.toNat ∧ c.toNat ≤ 57 then some (c.toNat - 48) else none

/-- Reads a run of decimal digits, most significant first. -/
def parseDigits : List Char → Nat → Option Nat
  | [], acc => some acc
  | c :: cs, acc =>
    match digitOf c with
    | none => none
    | some d => parseDigits cs (acc * 10 + d)

/-- Model of `strconv.Atoi`: an optional sign, then at least one decimal digit, and a
value inside the `int` range.  `none` stands for a non-nil `error` (the handlers only
test `err != nil`). -/
def Atoi (s : String) : Option Int :=
  match s.data with
  | [] => none
  | c :: cs =>
    let body := if c = '-' ∨ c = '+' then cs else c :: cs
    if body = [] then none
    else
      match parseDigits body 0 with
      | none => none
      | some n =>
        if c = '-' then
          (if (n : Int) ≤ 2 ^ 63 then some (-(n : Int)) else none)
        else
          (if (n : Int) < 2 ^ 63 then some (n : Int) else none)

/-! ## Go strings -/

/-- A Go `string`: a sequence of bytes (natural numbers below 256), which need not be
valid UTF-8. -/
structure GoString where
  bytes : List Nat
deriving Repr, DecidableEq

/-- UTF-8 encoding of one character. -/
def encodeChar (c : Char) : List Nat :=
  if c.toNat < 128 then [c.toNat]
  else if c.toNat < 2048 then [192 + c.toNat / 64, 128 + c.toNat % 64]
  else if c.toNat < 65536 then
    [224 + c.toNat / 4096, 128 + (c.toNat / 64) % 64, 128 + c.toNat % 64]
  else
    [240 + c.toNat / 262144, 128 + (c.toNat / 4096) % 64, 128 + (c.toNat / 64) % 64,
     128 + c.toNat % 64]

/-- The Go string holding the UTF-8 encoding of a text. -/
def GoString.ofString (s : String) : GoString := ⟨s.data.flatMap encodeChar⟩

instance : Coe String GoString := ⟨GoString.ofString⟩

/-- A UTF-8 continuation byte. -/
def isCont (b : Nat) : Bool := 128 ≤ b && b ≤ 191

/-- Model of `utf8.ValidString` (standard library): every byte belongs to a well-formed
encoding, without overlong forms, surrogates or values above U+10FFFF. -/
def validUTF8 : List Nat → Bool
  | [] => true
  | b0 :: rest =>
    if b0 < 128 then validUTF8 rest
    else
      match rest with
      | [] => false
      | b1 :: rest1 =>
        if 194 ≤ b0 ∧ b0 ≤ 223 then isCont b1 && validUTF8 rest1
        else
          match rest1 with
          | [] => false
          | b2 :: rest2 =>
            if b0 = 224 then (160 ≤ b1 && b1 ≤ 191) && isCont b2 && validUTF8 rest2
            else if (225 ≤ b0 ∧ b0 ≤ 236) ∨ b0 = 238 ∨ b0 = 239 then
              isCont b1 && isCont b2 && validUTF8 rest2
            else if b0 = 237 then (128 ≤ b1 && b1 ≤ 159) && isCont b2 && validUTF8 rest2
            else
              match rest2 with
              | [] => false
              | b3 :: rest3 =>
                if b0 = 240 then
                  (144 ≤ b1 && b1 ≤ 191) && isCont b2 && isCont b3 && validUTF8 rest3
                else if 241 ≤ b0 ∧ b0 ≤ 243 then
                  isCont b1 && isCont b2 && isCont b3 && validUTF8 rest3
                else if b0 = 244 then
                  (128 ≤ b1 && b1 ≤ 143) && isCont b2 && isCont b3 && validUTF8 rest3
                else false

/-! ## Requests -/

/-- The parts of `*http.Request` the program reads.  `query` holds the decoded query
parameters in order of appearance; `path` is the decoded `r.URL.Path`, which may hold
any bytes (`/%ff` decodes to a byte that is not UTF-8). -/
structure Request where
  method : GoString
  path : GoString
  query : List (String × String)
  body : String
  remoteAddr : String
  userAgent : String
deriving Repr, DecidableEq

/-- Model of `url.Values.Get`: the first value of the key, or the empty string. -/
def Get (q : List (String × String)) (key : String) : String :=
  match q.find? (fun kv => kv.1 = key) with
  | some kv => kv.2
  | none => ""

/-! ## Log records -/

/-- Severity of a zap log entry. -/
inductive Level
  | debug | info | warn | error
deriving Repr, DecidableEq

/-- Value of a structured zap field.  `seconds ns` is `Duration.Seconds()` of a
duration of `ns` nanoseconds, kept symbolic. -/
inductive FieldVal
  | str (s : String)
  | bytes (s : GoString)
  | int (n : Int)
  | uint (n : Nat)
  | dur (ns : Int)
  | seconds (ns : Int)
deriving Repr, DecidableEq

/-- One call of a zap logger method. -/
structure LogRecord where
  level : Level
  msg : String
  fields : List (String × FieldVal)
deriving Repr, DecidableEq

/-! ## Handler effects -/

/-- What a handler writes as response body. -/
inductive Payload
  | text (msg : String)
  | slow (message : String) (duration_ms actual_delay : Int)
  | leak (message : String) (allocated_kb : Int) (total_leaks : Nat)
      (heap_alloc_mb heap_sys_mb num_gc : Nat)
  | cpu (message : String) (requested_duration actual_duration_ms : Int) (pprof_seconds : Int)
  | log (status message : String)
  | raw
deriving Repr, DecidableEq

/-- Observable effects of a handler, in program order. -/
inductive HEffect
  | writeHeader (code : Int)
  | write (p : Payload)
  | sleep (ns : Int)
  | log (rec : LogRecord)
deriving Repr, DecidableEq

/-- One execution of a handler: its effects and whether it ended by a panic. -/
structure Run where
  effects : List HEffect
  panicked : Bool
deriving Repr, DecidableEq

/-- Model of `http.Error`: sets the status and writes the message. -/
def httpError (msg : String) (code : Int) : List HEffect :=
  [HEffect.writeHeader code, HEffect.write (Payload.text msg)]

/-- Status line that the `net/http` server fixes for a sequence of calls on the
underlying `ResponseWriter`: the first `WriteHeader` with a final code decides, a
`Write` before it fixes 200, later `WriteHeader` calls are ignored.  A `WriteHeader`
with an informational code (1xx other than 101) sends an interim response and leaves
the final status open. -/
def wireStatus : List HEffect → Option Int
  | [] => none
  | HEffect.writeHeader c :: rest =>
    if 100 ≤ c ∧ c ≤ 199 ∧ c ≠ 101 then wireStatus rest else some c
  | HEffect.write _ :: _ => some 200
  | _ :: rest => wireStatus rest

/-- Status received by the client for a run.  When the handler returns, the server
sends the status fixed by its calls, or 200 when it fixed none.  When the handler
panics, the server closes the connection without flushing the response it holds in its
buffer: the client receives no status (`none`).  Responses are taken to fit that
buffer, as the short bodies of this service do. -/
def sentStatus (run : Run) : Option Int :=
  if run.panicked then none
  else
    match wireStatus run.effects with
    | some c => some c
    | none => some 200

/-! ## `handlers/debug.go` -/

/-- Go `time.Duration(n) * time.Millisecond`, in `int64` nanoseconds. -/
def millis (n : Int) : Int := wrapInt64 (n * 1000000)

/-- Embedding of `SlowHandler`. -/
def SlowHandler (r : Request) : Run :=
  let durationStr := Get r.query "duration"
  let durationStr := if durationStr = "" then "1000" else durationStr
  match Atoi durationStr with
  | none => ⟨httpError "invalid duration parameter" 400, false⟩
  | some duration =>
    if duration < 0 then ⟨httpError "invalid duration parameter" 400, false⟩
    else
      ⟨[HEffect.sleep (millis duration),
        HEffect.write (Payload.slow "slow endpoint completed" duration duration)], false⟩

/-- Memory statistics read by `runtime.ReadMemStats`. -/
structure MemStats where
  Alloc : Nat
  Sys : Nat
  HeapSys : Nat
  NumGC : Nat
deriving Repr, DecidableEq

/-- Contents of the buffer built by `LeakHandler`: byte `i` is `i % 256`. -/
def fillBytes (n : Nat) : List Nat := (List.range n).map (fun i => i % 256)

/-- Embedding of `LeakHandler` on the accumulator `leakedMemory`.  `allocLimit` is the
largest length `make([]byte, n)` grants; a negative or larger length panics.  Returns
the run and the accumulator afterwards. -/
def LeakHandler (allocLimit : Nat) (m : MemStats) (r : Request)
    (leakedMemory : List (List Nat)) : Run × List (List Nat) :=
  let sizeStr := Get r.query "size"
  let sizeStr := if sizeStr = "" then "1024" else sizeStr
  match Atoi sizeStr with
  | none => (⟨httpError "invalid size parameter" 400, false⟩, leakedMemory)
  | some sizeKB =>
    if sizeKB < 0 then (⟨httpError "invalid size parameter" 400, false⟩, leakedMemory)
    else
      let n := wrapInt64 (sizeKB * 1024)
      if n < 0 ∨ (allocLimit : Int) < n then (⟨[], true⟩, leakedMemory)
      else
        let bytes := fillBytes n.toNat
        let leakedMemory := leakedMemory ++ [bytes]
        (⟨[HEffect.log ⟨Level.warn, "Memory leak triggered",
              [("allocated_kb", FieldVal.int sizeKB),
               ("total_leaks", FieldVal.int leakedMemory.length),
               ("heap_alloc_mb", FieldVal.uint (m.Alloc / 1024 / 1024)),
               ("sys_mb", FieldVal.uint (m.Sys / 1024 / 1024))]⟩,
            HEffect.write (Payload.leak "memory leak triggered" sizeKB leakedMemory.length
              (m.Alloc / 1024 / 1024) (m.HeapSys / 1024 / 1024) m.NumGC)], false⟩,
          leakedMemory)

/-- The busy loop of `CPUHandler`: `k` is the index of the next clock reading, `sum` the
accumulator (one outer iteration adds `0 + 1 + ... + 999999`).  Returns the index of the
next clock reading after the loop, or `none` when `fuel` outer iterations do not reach
the deadline. -/
def burn (clock : Nat → Int) (endTime : Int) : Nat → Nat → Int → Option (Nat × Int)
  | 0, _, _ => none
  | fuel + 1, k, sum =>
    if clock k < endTime then
      burn clock endTime fuel (k + 1) (wrapInt64 (sum + 499999500000))
    else some (k + 1, sum)

/-- Embedding of `CPUHandler`.  `clock k` is the `k`-th reading of `time.Now()` in
nanoseconds; `none` means the busy loop is still running after `fuel` iterations. -/
def CPUHandler (clock : Nat → Int) (fuel : Nat) (r : Request) : Option Run :=
  let durationStr := Get r.query "duration"
  let durationStr := if durationStr = "" then "5000" else durationStr
  match Atoi durationStr with
  | none => some ⟨httpError "invalid duration parameter" 400, false⟩
  | some duration =>
    if duration < 0 then some ⟨httpError "invalid duration parameter" 400, false⟩
    else
      let start := clock 0
      let endTime := start + millis duration
      match burn clock endTime fuel 1 0 with
      | none => none
      | some (k, _) =>
        let elapsed := Int.tdiv (satInt64 (clock k - start)) 1000000
        some ⟨[HEffect.log ⟨Level.info, "CPU spike triggered",
                [("duration_ms", FieldVal.int duration)]⟩,
               HEffect.write (Payload.cpu "CPU spike completed" duration elapsed
                 (Int.tdiv duration 1000))], false⟩

/-- A query parameter is rejected when it is non-empty and `strconv.Atoi` does not
return a non-negative integer for it. -/
def Rejected (param : String) : Prop :=
  param ≠ "" ∧ ¬ ∃ n : Int, Atoi param = some n ∧ 0 ≤ n

/-! ## `handlers/log.go` -/

/-- The request body of `/log` after JSON decoding; a field that the body omits keeps
Go's zero value, the empty string. -/
structure LogRequest where
  Level : String
  Message : String
deriving Repr, DecidableEq

/-- The zap call selected by the `switch req.Level` of `LogHandler`. -/
def emitAtLevel (level message : String) : LogRecord :=
  if level = "info" then
    ⟨Level.info, message, [("source", FieldVal.str "api"), ("endpoint", FieldVal.str "/log")]⟩
  else if level = "warn" then
    ⟨Level.warn, message, [("source", FieldVal.str "api"), ("endpoint", FieldVal.str "/log")]⟩
  else if level = "error" then
    ⟨Level.error, message, [("source", FieldVal.str "api"), ("endpoint", FieldVal.str "/log")]⟩
  else if level = "debug" then
    ⟨Level.debug, message, [("source", FieldVal.str "api"), ("endpoint", FieldVal.str "/log")]⟩
  else
    ⟨Level.info, message, [("source", FieldVal.str "api"), ("endpoint", FieldVal.str "/log"),
      ("original_level", FieldVal.str level)]⟩

/-- Embedding of `LogHandler`.  `decode` is `json.NewDecoder(r.Body).Decode(&req)`:
`none` is a decoding error. -/
def LogHandler (decode : String → Option LogRequest) (r : Request) : Run :=
  match decode r.body with
  | none => ⟨httpError "invalid request body" 400, false⟩
  | some req =>
    let level := if req.Level = "" then "info" else req.Level
    let message := if req.Message = "" then "empty log message" else req.Message
    ⟨[HEffect.log (emitAtLevel level message),
      HEffect.writeHeader 200,
      HEffect.write (Payload.log "logged" message)], false⟩

/-- Log records a handler run hands to the logger, in order. -/
def logsOf : List HEffect → List LogRecord
  | [] => []
  | HEffect.log rec :: rest => rec :: logsOf rest
  | _ :: rest => logsOf rest

/-- Response bodies a handler run writes, in order. -/
def payloadsOf : List HEffect → List Payload
  | [] => []
  | HEffect.write p :: rest => p :: payloadsOf rest
  | _ :: rest => payloadsOf rest

/-! ## `net/http` status texts (standard library table) -/

/-- The table behind `http.StatusText`. -/
def statusTexts : List (Int × String) :=
  [(100, "Continue"), (101, "Switching Protocols"), (102, "Processing"),
   (103, "Early Hints"), (200, "OK"), (201, "Created"), (202, "Accepted"),
   (203, "Non-Authoritative Information"), (204, "No Content"), (205, "Reset Content"),
   (206, "Partial Content"), (207, "Multi-Status"), (208, "Already Reported"),
   (226, "IM Used"), (300, "Multiple Choices"), (301, "Moved Permanently"),
   (302, "Found"), (303, "See Other"), (304, "Not Modified"), (305, "Use Proxy"),
   (307, "Temporary Redirect"), (308, "Permanent Redirect"), (400, "Bad Request"),
   (401, "Unauthorized"), (402, "Payment Required"), (403, "Forbidden"),
   (404, "Not Found"), (405, "Method Not Allowed"), (406, "Not Acceptable"),
   (407, "Proxy Authentication Required"), (408, "Request Timeout"), (409, "Conflict"),
   (410, "Gone"), (411, "Length Required"), (412, "Precondition Failed"),
   (413, "Request Entity Too Large"), (414, "Request URI Too Long"),
   (415, "Unsupported Media Type"), (416, "Requested Range Not Satisfiable"),
   (417, "Expectation Failed"), (418, "I\x27m a teapot"), (421, "Misdirected Request"),
   (422, "Unprocessable Entity"), (423, "Locked"), (424, "Failed Dependency"),
   (425, "Too Early"), (426, "Upgrade Required"), (428, "Precondition Required"),
   (429, "Too Many Requests"), (431, "Request Header Fields Too Large"),
   (451, "Unavailable For Legal Reasons"), (500, "Internal Server Error"),
   (501, "Not Implemented"), (502, "Bad Gateway"), (503, "Service Unavailable"),
   (504, "Gateway Timeout"), (505, "HTTP Version Not Supported"),
   (506, "Variant Also Negotiates"), (507, "Insufficient Storage"),
   (508, "Loop Detected"), (510, "Not Extended"),
   (511, "Network Authentication Required")]

/-- Model of `http.StatusText`: the text of a known code, the empty string otherwise. -/
def StatusText (code : Int) : String :=
  match statusTexts.find? (fun e => e.1 = code) with
  | some e => e.2
  | none => ""

/-! ## `middleware/logging.go` -/

/-- The wrapper around `http.ResponseWriter` that remembers a status code. -/
structure responseWriter where
  statusCode : Int
deriving Repr, DecidableEq

/-- The handler's calls arriving at the wrapper: `WriteHeader` is the overriding method
and stores its argument, every other call goes to the embedded writer untouched. -/
def serveHTTP (rw : responseWriter) : List HEffect → responseWriter
  | [] => rw
  | HEffect.writeHeader code :: rest => serveHTTP { rw with statusCode := code } rest
  | _ :: rest => serveHTTP rw rest

/-- Label triple of `HTTPRequestsTotal`: endpoint, method, status. -/
abbrev Labels := GoString × GoString × String

/-- The check `WithLabelValues` makes on its arguments (Prometheus client library):
every label value must be valid UTF-8, otherwise the call panics.  The status label is
a text of the `http.StatusText` table and always passes. -/
def labelsValid (endpoint method : GoString) : Bool :=
  validUTF8 endpoint.bytes && validUTF8 method.bytes

/-- Effects of one pass through `LoggingMiddleware`, in program order. -/
inductive MEffect
  | gaugeInc
  | gaugeDec
  | downstream (e : HEffect)
  | log (rec : LogRecord)
  | counterInc (labels : Labels)
  | observe (endpoint method : GoString) (ns : Int)
deriving Repr, DecidableEq

/-- One pass through the middleware: its effects and whether a panic left it. -/
structure MRun where
  trace : List MEffect
  panicked : Bool
deriving Repr, DecidableEq

/-- The `HTTP request` record written by the middleware. -/
def requestRecord (r : Request) (statusCode duration : Int) : LogRecord :=
  ⟨Level.info, "HTTP request",
    [("method", FieldVal.bytes r.method),
     ("path", FieldVal.bytes r.path),
     ("route", FieldVal.bytes r.path),
     ("status", FieldVal.int statusCode),
     ("status_code", FieldVal.int statusCode),
     ("duration", FieldVal.dur duration),
     ("latency", FieldVal.seconds duration),
     ("remote_addr", FieldVal.str r.remoteAddr),
     ("user_agent", FieldVal.str r.userAgent)]⟩

/-- Embedding of the handler returned by `LoggingMiddleware(next)`.  `t0` is the clock
reading of `start := time.Now()` and `t1` the reading inside `time.Since(start)`.  The
deferred `ActiveConnections.Dec()` runs on return and on panic alike; the statements
after `next.ServeHTTP` run only when `next` returns.  `WithLabelValues` panics on a
label value that is not valid UTF-8: the log record is written by then, the increment
and the observation are not reached. -/
def LoggingMiddleware (next : Request → Run) (r : Request) (t0 t1 : Int) : MRun :=
  let rw : responseWriter := { statusCode := 200 }
  let run := next r
  let rw := serveHTTP rw run.effects
  let served := MEffect.gaugeInc :: run.effects.map MEffect.downstream
  if run.panicked then
    ⟨served ++ [MEffect.gaugeDec], true⟩
  else
    let duration := satInt64 (t1 - t0)
    if labelsValid r.path r.method then
      ⟨served ++
        [MEffect.log (requestRecord r rw.statusCode duration),
         MEffect.counterInc (r.path, r.method, StatusText rw.statusCode),
         MEffect.observe r.path r.method duration,
         MEffect.gaugeDec], false⟩
    else
      ⟨served ++
        [MEffect.log (requestRecord r rw.statusCode duration),
         MEffect.gaugeDec], true⟩

/-- The status code the middleware holds when `next.ServeHTTP` is over. -/
def recordedStatus (next : Request → Run) (r : Request) : Int :=
  (serveHTTP { statusCode := 200 } (next r).effects).statusCode

/-- The calls that reached the underlying `ResponseWriter` during a middleware pass. -/
def forwarded : List MEffect → List HEffect
  | [] => []
  | MEffect.downstream e :: rest => e :: forwarded rest
  | _ :: rest => forwarded rest

/-- Status the client received for a middleware pass. -/
def clientStatus (m : MRun) : Option Int :=
  sentStatus ⟨forwarded m.trace, m.panicked⟩

/-- Value of the `ActiveConnections` gauge after a trace, starting from `g`. -/
def gaugeAfter (g : Int) : List MEffect → Int
  | [] => g
  | MEffect.gaugeInc :: rest => gaugeAfter (g + 1) rest
  | MEffect.gaugeDec :: rest => gaugeAfter (g - 1) rest
  | _ :: rest => gaugeAfter g rest

/-- Values of `HTTPRequestsTotal` after a trace, starting from `c`. -/
def countersAfter (c : Labels → Nat) : List MEffect → Labels → Nat
  | [] => c
  | MEffect.counterInc l :: rest =>
    countersAfter (fun k => if k = l then c k + 1 else c k) rest
  | _ :: rest => countersAfter c rest

/-- Observations made on `HTTPRequestDuration` by a trace, in order. -/
def observations : List MEffect → List (GoString × GoString × Int)
  | [] => []
  | MEffect.observe e m ns :: rest => (e, m, ns) :: observations rest
  | _ :: rest => observations rest

/-- Records the middleware itself logged in a trace, in order. -/
def middlewareLogs : List MEffect → List LogRecord
  | [] => []
  | MEffect.log rec :: rest => rec :: middlewareLogs rest
  | _ :: rest => middlewareLogs rest

/-- Counter increments in a trace, in order. -/
def counterIncs : List MEffect → List Labels
  | [] => []
  | MEffect.counterInc l :: rest => l :: counterIncs rest
  | _ :: rest => counterIncs rest

/-- One request of a sequential run: the downstream handler, the request and the two
clock readings of the middleware. -/
structure Served where
  next : Request → Run
  r : Request
  t0 : Int
  t1 : Int

/-- Trace of a sequential run: the requests pass through the middleware one after
another (the server recovers a panicking request and keeps serving). -/
def seqTrace : List Served → List MEffect
  | [] => []
  | s :: rest => (LoggingMiddleware s.next s.r s.t0 s.t1).trace ++ seqTrace rest

/-- Number of requests inside the middleware at a point of a sequential run where
`q` is the part of the current request's trace already executed: the request is inside
once it has started and until its last effect. -/
def inFlight (q : List MEffect) : Int := if q = [] then 0 else 1

/-! ## Sequential and interleaved use of `leakedMemory` -/

/-- Sequential calls of `LeakHandler`, each with its own memory statistics and request;
returns the accumulator after the last call. -/
def leakSeq (allocLimit : Nat) : List (MemStats × Request) → List (List Nat) → List (List Nat)
  | [], leaked => leaked
  | (m, r) :: rest, leaked => leakSeq allocLimit rest (LeakHandler allocLimit m r leaked).2

/-- Total number of bytes held by the accumulator. -/
def totalBytes (leaked : List (List Nat)) : Nat := (leaked.map List.length).sum

/-- Where an accepted `LeakHandler` call stands with respect to the shared variable.
The statement `leakedMemory = append(leakedMemory, bytes)` is a load of the slice
followed by a store of the extended slice, with no lock around them; the two later
`len(leakedMemory)` reads feed the log record and the response. -/
inductive LeakPc
  | atAppend
  | loaded (old : List (List Nat))
  | stored
  | logged (total_leaks : Nat)
  | done (logged reported : Nat)
deriving Repr, DecidableEq

/-- An accepted `LeakHandler` call in flight: the buffer it built and its position. -/
structure LeakCall where
  bytes : List Nat
  pc : LeakPc
deriving Repr, DecidableEq

/-- The shared accumulator and the calls running against it. -/
structure Shared where
  leakedMemory : List (List Nat)
  calls : List LeakCall
deriving Repr, DecidableEq

/-- One memory access of one call. -/
def stepCall (leaked : List (List Nat)) (c : LeakCall) : List (List Nat) × LeakCall :=
  match c.pc with
  | LeakPc.atAppend => (leaked, { c with pc := LeakPc.loaded leaked })
  | LeakPc.loaded old => (old ++ [c.bytes], { c with pc := LeakPc.stored })
  | LeakPc.stored => (leaked, { c with pc := LeakPc.logged leaked.length })
  | LeakPc.logged n => (leaked, { c with pc := LeakPc.done n leaked.length })
  | LeakPc.done _ _ => (leaked, c)

/-- The scheduler lets call number `i` perform its next memory access. -/
def stepShared (i : Nat) (s : Shared) : Shared :=
  match s.calls.get? i with
  | none => s
  | some c =>
    let res := stepCall s.leakedMemory c
    { leakedMemory := res.1, calls := s.calls.set i res.2 }

/-- Runs a schedule: the list names which call moves at each step. -/
def runSchedule : List Nat → Shared → Shared
  | [], s => s
  | i :: rest, s => runSchedule rest (stepShared i s)

/-- A call that has finished all its memory accesses. -/
def LeakCall.finished (c : LeakCall) : Bool :=
  match c.pc with
  | LeakPc.done _ _ => true
  | _ => false

/-! ## Auxiliary notions for the gauge -/

/-- A stretch of trace without gauge effects. -/
def NoGauge (l : List MEffect) : Prop :=
  ∀ e ∈ l, e ≠ MEffect.gaugeInc ∧ e ≠ MEffect.gaugeDec

/-- The part of a middleware pass between the gauge increment and the decrement. -/
def inner (next : Request → Run) (r : Request) (t0 t1 : Int) : List MEffect :=
  (next r).effects.map MEffect.downstream ++
    (if (next r).panicked then []
     else if labelsValid r.path r.method then
      [MEffect.log (requestRecord r (recordedStatus next r) (satInt64 (t1 - t0))),
       MEffect.counterInc (r.path, r.method, StatusText (recordedStatus next r)),
       MEffect.observe r.path r.method (satInt64 (t1 - t0))]
     else
      [MEffect.log (requestRecord r (recordedStatus next r) (satInt64 (t1 - t0)))])

/-! ## Parameter validation -/

/-- Rejection read off the handlers' own test `err != nil || n < 0` on the parameter
with its default substituted. -/
theorem rejected_iff (p dflt : String) (d : Int) (hd : Atoi dflt = some d) (h0 : 0 ≤ d) :
    Rejected p ↔ (match Atoi (if p = "" then dflt else p) with
      | none => True
      | some n => n < 0) := by
  unfold Rejected
  by_cases hp : p = ""
  · simp [hp, hd, h0]
  · simp only [hp, if_false]
    cases h : Atoi p with
    | none => simp [hp]
    | some n => simp [not_le, hp]

theorem slow_rejects (r : Request) :
    sentStatus (SlowHandler r) = some 400 ↔ Rejected (Get r.query "duration") := by
  rw [rejected_iff _ "1000" 1000 (by decide) (by decide)]
  unfold SlowHandler
  simp only []
  cases h : Atoi (if Get r.query "duration" = "" then "1000" else Get r.query "duration") with
  | none => simp [sentStatus, wireStatus, httpError]
  | some n =>
    by_cases hn : n < 0
    · simp [hn, sentStatus, wireStatus, httpError]
    · simp [hn, sentStatus, wireStatus]

theorem leak_rejects (allocLimit : Nat) (m : MemStats) (r : Request) (L : List (List Nat)) :
    sentStatus (LeakHandler allocLimit m r L).1 = some 400 ↔ Rejected (Get r.query "size") := by
  rw [rejected_iff _ "1024" 1024 (by decide) (by decide)]
  unfold LeakHandler
  simp only []
  cases h : Atoi (if Get r.query "size" = "" then "1024" else Get r.query "size") with
  | none => simp [sentStatus, wireStatus, httpError]
  | some n =>
    by_cases hn : n < 0
    · simp [hn, sentStatus, wireStatus, httpError]
    · by_cases ha : wrapInt64 (n * 1024) < 0 ∨ (allocLimit : Int) < wrapInt64 (n * 1024)
      · simp [hn, ha, sentStatus, wireStatus]
      · simp [hn, ha, sentStatus, wireStatus]

theorem cpu_rejects (clock : Nat → Int) (fuel : Nat) (r : Request) :
    (∃ run, CPUHandler clock fuel r = some run ∧ sentStatus run = some 400) ↔
      Rejected (Get r.query "duration") := by
  rw [rejected_iff _ "5000" 5000 (by decide) (by decide)]
  unfold CPUHandler
  simp only []
  cases h : Atoi (if Get r.query "duration" = "" then "5000" else Get r.query "duration") with
  | none => simp [sentStatus, wireStatus, httpError]
  | some n =>
    by_cases hn : n < 0
    · simp [hn, sentStatus, wireStatus, httpError]
    · simp only [hn, if_false, iff_false]
      rintro ⟨run, hrun, hs⟩
      cases hb : burn clock (clock 0 + millis n) fuel 1 0 with
      | none => simp [hb] at hrun
      | some kv =>
        obtain ⟨k, s⟩ := kv
        simp only [hb, Option.some.injEq] at hrun
        subst hrun
        simp [sentStatus, wireStatus] at hs

/-- C1: each of SlowHandler, LeakHandler and CPUHandler answers 400 exactly when its
parameter is non-empty and `strconv.Atoi` does not give a non-negative integer for it;
with an absent or empty parameter the handler behaves as with the explicit default
1000, 1024 and 5000 respectively. -/
theorem C1_parameter_validation (r : Request) (allocLimit : Nat) (m : MemStats)
    (L : List (List Nat)) (clock : Nat → Int) (fuel : Nat) :
    (sentStatus (SlowHandler r) = some 400 ↔ Rejected (Get r.query "duration")) ∧
    (sentStatus (LeakHandler allocLimit m r L).1 = some 400 ↔ Rejected (Get r.query "size")) ∧
    ((∃ run, CPUHandler clock fuel r = some run ∧ sentStatus run = some 400) ↔
      Rejected (Get r.query "duration")) ∧
    (Get r.query "duration" = "" →
      SlowHandler r = SlowHandler { r with query := [("duration", "1000")] } ∧
      CPUHandler clock fuel r
        = CPUHandler clock fuel { r with query := [("duration", "5000")] }) ∧
    (Get r.query "size" = "" →
      LeakHandler allocLimit m r L
        = LeakHandler allocLimit m { r with query := [("size", "1024")] } L) := by
  refine ⟨slow_rejects r, leak_rejects allocLimit m r L, cpu_rejects clock fuel r, ?_, ?_⟩
  · intro h
    have h1 : Get [("duration", "1000")] "duration" = "1000" := by decide
    have h5 : Get [("duration", "5000")] "duration" = "5000" := by decide
    constructor
    · simp [SlowHandler, h, h1]
    · simp [CPUHandler, h, h5]
  · intro h
    have h1 : Get [("size", "1024")] "size" = "1024" := by decide
    simp [LeakHandler, h, h1]

/-- A request without query parameters is not rejected and is served as with the
defaults (the default leak of 1024 KB fits the allocation limit and is appended); the
parameter `abc` is rejected. -/
theorem C1_parameter_validation_witness :
    Get ([] : List (String × String)) "duration" = "" ∧
    Get ([] : List (String × String)) "size" = "" ∧
    ¬ Rejected (Get ([] : List (String × String)) "duration") ∧
    SlowHandler ⟨"GET", "/slow", [], "", "", ""⟩
      = SlowHandler ⟨"GET", "/slow", [("duration", "1000")], "", "", ""⟩ ∧
    LeakHandler 281474976710656 ⟨0, 0, 0, 0⟩ ⟨"GET", "/leak", [], "", "", ""⟩ []
      = LeakHandler 281474976710656 ⟨0, 0, 0, 0⟩
          ⟨"GET", "/leak", [("size", "1024")], "", "", ""⟩ [] ∧
    Rejected (Get [("duration", "abc")] "duration") :=
  have h := C1_parameter_validation ⟨"GET", "/slow", [], "", "", ""⟩ 281474976710656
    ⟨0, 0, 0, 0⟩ [] (fun k => (k : Int)) 0
  have h2 := C1_parameter_validation ⟨"GET", "/leak", [], "", "", ""⟩ 281474976710656
    ⟨0, 0, 0, 0⟩ [] (fun k => (k : Int)) 0
  have h3 := C1_parameter_validation ⟨"GET", "/slow", [("duration", "abc")], "", "", ""⟩
    281474976710656 ⟨0, 0, 0, 0⟩ [] (fun k => (k : Int)) 0
  ⟨by decide, by decide,
   fun hr => absurd (h.1.mpr hr) (by decide),
   (h.2.2.2.1 (by decide)).1,
   h2.2.2.2.2 (by decide),
   h3.1.mp (by decide)⟩

/-! ## The status the middleware records -/

/-- C2: a handler that writes part of the body and then reports a failure with
`http.Error(w, msg, 500)`.  The client receives 200 (the status implied by the first
`Write`; the later `WriteHeader` is ignored by the server), while the middleware logs
`status` = `status_code` = 500 and counts the request under "Internal Server Error". -/
theorem C2_recorded_status_differs_from_sent :
    clientStatus (LoggingMiddleware
        (fun _ => ⟨HEffect.write Payload.raw :: httpError "boom" 500, false⟩)
        ⟨"GET", "/report", [], "", "10.0.0.1:5000", "curl"⟩ 0 1000) = some 200 ∧
    recordedStatus (fun _ => ⟨HEffect.write Payload.raw :: httpError "boom" 500, false⟩)
        ⟨"GET", "/report", [], "", "10.0.0.1:5000", "curl"⟩ = 500 ∧
    middlewareLogs (LoggingMiddleware
        (fun _ => ⟨HEffect.write Payload.raw :: httpError "boom" 500, false⟩)
        ⟨"GET", "/report", [], "", "10.0.0.1:5000", "curl"⟩ 0 1000).trace
      = [requestRecord ⟨"GET", "/report", [], "", "10.0.0.1:5000", "curl"⟩ 500 1000] ∧
    counterIncs (LoggingMiddleware
        (fun _ => ⟨HEffect.write Payload.raw :: httpError "boom" 500, false⟩)
        ⟨"GET", "/report", [], "", "10.0.0.1:5000", "curl"⟩ 0 1000).trace
      = [(GoString.ofString "/report", GoString.ofString "GET", "Internal Server Error")] := by
  decide

/-! ## Outcome recording when the downstream handler panics -/

/-- C3: with a downstream handler that panics, the middleware emits no `HTTP request`
record, no HTTPRequestsTotal increment and no HTTPRequestDuration observation; only the
deferred gauge decrement runs. -/
theorem C3_panic_suppresses_outcome :
    (LoggingMiddleware (fun _ => ⟨[], true⟩)
        ⟨"GET", "/health", [], "", "10.0.0.1:5000", "curl"⟩ 0 1000)
      = ⟨[MEffect.gaugeInc, MEffect.gaugeDec], true⟩ ∧
    middlewareLogs (LoggingMiddleware (fun _ => ⟨[], true⟩)
        ⟨"GET", "/health", [], "", "10.0.0.1:5000", "curl"⟩ 0 1000).trace = [] ∧
    counterIncs (LoggingMiddleware (fun _ => ⟨[], true⟩)
        ⟨"GET", "/health", [], "", "10.0.0.1:5000", "curl"⟩ 0 1000).trace = [] ∧
    observations (LoggingMiddleware (fun _ => ⟨[], true⟩)
        ⟨"GET", "/health", [], "", "10.0.0.1:5000", "curl"⟩ 0 1000).trace = [] := by
  decide

/-! ## The leak accumulator -/

theorem leak_length_le (allocLimit : Nat) (m : MemStats) (r : Request) (L : List (List Nat)) :
    L.length ≤ (LeakHandler allocLimit m r L).2.length := by
  unfold LeakHandler
  simp only []
  split
  · exact le_refl _
  · split
    · exact le_refl _
    · split
      · exact le_refl _
      · simp

theorem leakSeq_length_le (allocLimit : Nat) (rs : List (MemStats × Request)) :
    ∀ L : List (List Nat), L.length ≤ (leakSeq allocLimit rs L).length := by
  induction rs with
  | nil => intro L; exact le_refl _
  | cons x rest ih =>
    intro L
    obtain ⟨m, r⟩ := x
    exact le_trans (leak_length_le allocLimit m r L) (ih _)

/-- C4: a 200 answer of LeakHandler leaves the accumulator as the old one with exactly
one buffer appended at the end, reports `total_leaks` = old length + 1 and
`allocated_kb` = the requested size; a 400 answer leaves the accumulator unchanged; over
any sequence of sequential calls the number of buffers never decreases. -/
theorem C4_leak_accumulator (allocLimit : Nat) (m : MemStats) (r : Request)
    (L : List (List Nat)) :
    (sentStatus (LeakHandler allocLimit m r L).1 = some 200 →
      ∃ (buf : List Nat) (s : Int),
        Atoi (if Get r.query "size" = "" then "1024" else Get r.query "size") = some s ∧
        (LeakHandler allocLimit m r L).2 = L ++ [buf] ∧
        payloadsOf (LeakHandler allocLimit m r L).1.effects
          = [Payload.leak "memory leak triggered" s (L.length + 1)
              (m.Alloc / 1024 / 1024) (m.HeapSys / 1024 / 1024) m.NumGC]) ∧
    (sentStatus (LeakHandler allocLimit m r L).1 = some 400 →
      (LeakHandler allocLimit m r L).2 = L) ∧
    (∀ rs : List (MemStats × Request), L.length ≤ (leakSeq allocLimit rs L).length) := by
  refine ⟨?_, ?_, fun rs => leakSeq_length_le allocLimit rs L⟩
  · unfold LeakHandler
    simp only []
    cases h : Atoi (if Get r.query "size" = "" then "1024" else Get r.query "size") with
    | none => simp [sentStatus, wireStatus, httpError]
    | some n =>
      by_cases hn : n < 0
      · simp [hn, sentStatus, wireStatus, httpError]
      · by_cases ha : wrapInt64 (n * 1024) < 0 ∨ (allocLimit : Int) < wrapInt64 (n * 1024)
        · simp [hn, ha, sentStatus, wireStatus]
        · simp [hn, ha, payloadsOf]
  · unfold LeakHandler
    simp only []
    cases h : Atoi (if Get r.query "size" = "" then "1024" else Get r.query "size") with
    | none => simp
    | some n =>
      by_cases hn : n < 0
      · simp [hn]
      · by_cases ha : wrapInt64 (n * 1024) < 0 ∨ (allocLimit : Int) < wrapInt64 (n * 1024)
        · simp [hn, ha]
        · simp [hn, ha, sentStatus, wireStatus]


/-- An accepted call of 1 KB appends one buffer to a one-element accumulator, and a
rejected call leaves it alone. -/
theorem C4_leak_accumulator_witness :
    sentStatus (LeakHandler 4096 ⟨0, 0, 0, 0⟩
      ⟨"GET", "/leak", [("size", "1")], "", "", ""⟩ [[7]]).1 = some 200 ∧
    (∃ (buf : List Nat) (s : Int),
      Atoi (if Get [("size", "1")] "size" = "" then "1024" else Get [("size", "1")] "size")
        = some s ∧
      (LeakHandler 4096 ⟨0, 0, 0, 0⟩
        ⟨"GET", "/leak", [("size", "1")], "", "", ""⟩ [[7]]).2 = [[7]] ++ [buf] ∧
      payloadsOf (LeakHandler 4096 ⟨0, 0, 0, 0⟩
        ⟨"GET", "/leak", [("size", "1")], "", "", ""⟩ [[7]]).1.effects
        = [Payload.leak "memory leak triggered" s (([[7]] : List (List Nat)).length + 1)
            (0 / 1024 / 1024) (0 / 1024 / 1024) 0]) ∧
    sentStatus (LeakHandler 4096 ⟨0, 0, 0, 0⟩
      ⟨"GET", "/leak", [("size", "-1")], "", "", ""⟩ [[7]]).1 = some 400 ∧
    (LeakHandler 4096 ⟨0, 0, 0, 0⟩
      ⟨"GET", "/leak", [("size", "-1")], "", "", ""⟩ [[7]]).2 = [[7]] :=
  ⟨by decide,
   (C4_leak_accumulator 4096 ⟨0, 0, 0, 0⟩
      ⟨"GET", "/leak", [("size", "1")], "", "", ""⟩ [[7]]).1 (by decide),
   by decide,
   (C4_leak_accumulator 4096 ⟨0, 0, 0, 0⟩
      ⟨"GET", "/leak", [("size", "-1")], "", "", ""⟩ [[7]]).2.1 (by decide)⟩

theorem wrapInt64_of_inRange (x : Int) (h0 : 0 ≤ x) (h1 : x ≤ maxInt64) : wrapInt64 x = x := by
  unfold wrapInt64
  unfold maxInt64 at h1
  omega

theorem satInt64_ge (x b : Int) (hb : b ≤ maxInt64) (hx : b ≤ x) : b ≤ satInt64 x := by
  unfold satInt64
  unfold maxInt64 minInt64 at *
  split
  · exact hb
  · split
    · omega
    · exact hx

theorem length_fillBytes (n : Nat) : (fillBytes n).length = n := by
  simp [fillBytes]

/-- In range, the appended buffer has `1024 * s` bytes. -/
theorem leak_buffer_length_inRange (allocLimit : Nat) (m : MemStats) (r : Request)
    (L : List (List Nat)) (s : Nat)
    (hs : Atoi (if Get r.query "size" = "" then "1024" else Get r.query "size") = some (s : Int))
    (hr : 1024 * s ≤ allocLimit) (h53 : s < 2 ^ 53) :
    (LeakHandler allocLimit m r L).2 = L ++ [fillBytes (1024 * s)] := by
  have hw : wrapInt64 ((s : Int) * 1024) = ((1024 * s : Nat) : Int) := by
    rw [wrapInt64_of_inRange]
    · push_cast; ring
    · positivity
    · unfold maxInt64; omega
  unfold LeakHandler
  simp only [hs]
  have h1 : ¬ ((s : Int) < 0) := by omega
  have h2 : ¬ (((1024 * s : Nat) : Int) < 0 ∨ (allocLimit : Int) < ((1024 * s : Nat) : Int)) := by
    omega
  rw [hw]
  simp only [h1, h2, if_false, Int.toNat_ofNat]

/-- C5: the accepted size 18014398509481984 KB (2^54).  `sizeKB*1024` wraps to 0, the
handler answers 200 reporting `allocated_kb` = 18014398509481984 and `total_leaks` = 1,
and the buffer it appended is empty: the accumulator holds 0 bytes, not 1024 times the
requested size. -/
theorem C5_overflow_drops_bytes :
    Atoi "18014398509481984" = some 18014398509481984 ∧
    LeakHandler (2 ^ 48) ⟨0, 0, 0, 0⟩
        ⟨"GET", "/leak", [("size", "18014398509481984")], "", "", ""⟩ []
      = (⟨[HEffect.log ⟨Level.warn, "Memory leak triggered",
              [("allocated_kb", FieldVal.int 18014398509481984),
               ("total_leaks", FieldVal.int 1),
               ("heap_alloc_mb", FieldVal.uint 0),
               ("sys_mb", FieldVal.uint 0)]⟩,
            HEffect.write (Payload.leak "memory leak triggered" 18014398509481984 1 0 0 0)],
          false⟩, [[]]) ∧
    totalBytes (LeakHandler (2 ^ 48) ⟨0, 0, 0, 0⟩
        ⟨"GET", "/leak", [("size", "18014398509481984")], "", "", ""⟩ []).2 = 0 ∧
    totalBytes (LeakHandler (2 ^ 48) ⟨0, 0, 0, 0⟩
        ⟨"GET", "/leak", [("size", "18014398509481984")], "", "", ""⟩ []).2
      ≠ 1024 * 18014398509481984 := by
  decide

theorem burn_spec (clock : Nat → Int) (endTime : Int) :
    ∀ (fuel k : Nat) (sum : Int) (k1 : Nat) (s1 : Int),
      burn clock endTime fuel k sum = some (k1, s1) →
        k < k1 ∧ endTime ≤ clock (k1 - 1) := by
  intro fuel
  induction fuel with
  | zero => intro k sum k1 s1 h; simp [burn] at h
  | succ f ih =>
    intro k sum k1 s1 h
    unfold burn at h
    by_cases hc : clock k < endTime
    · simp only [hc, if_true] at h
      obtain ⟨h1, h2⟩ := ih _ _ _ _ h
      exact ⟨by omega, h2⟩
    · simp only [hc, if_false, Option.some.injEq, Prod.mk.injEq] at h
      obtain ⟨h1, _⟩ := h
      subst h1
      simp only [Nat.add_sub_cancel]
      exact ⟨by omega, by omega⟩

/-- With a deadline that fits `int64`, the reported elapsed time is at least the request. -/
theorem cpu_elapsed_inRange (clock : Nat → Int) (fuel : Nat) (r : Request) (d : Int)
    (run : Run)
    (hmono : ∀ j k : Nat, j ≤ k → clock j ≤ clock k)
    (hd : Atoi (if Get r.query "duration" = "" then "5000" else Get r.query "duration")
      = some d)
    (h0 : 0 ≤ d) (hfit : d * 1000000 ≤ maxInt64)
    (hrun : CPUHandler clock fuel r = some run) :
    ∃ elapsed : Int, d ≤ elapsed ∧
      payloadsOf run.effects
        = [Payload.cpu "CPU spike completed" d elapsed (Int.tdiv d 1000)] := by
  unfold CPUHandler at hrun
  simp only [hd] at hrun
  have h1 : ¬ d < 0 := by omega
  simp only [h1, if_false] at hrun
  have hm : millis d = d * 1000000 := by
    unfold millis
    exact wrapInt64_of_inRange _ (by positivity) hfit
  cases hb : burn clock (clock 0 + millis d) fuel 1 0 with
  | none => simp [hb] at hrun
  | some kv =>
    obtain ⟨k, s⟩ := kv
    simp only [hb, Option.some.injEq] at hrun
    subst hrun
    obtain ⟨hk, hend⟩ := burn_spec clock _ fuel 1 0 k s hb
    have hle : clock (k - 1) ≤ clock k := hmono _ _ (by omega)
    rw [hm] at hend
    have hdiff : d * 1000000 ≤ clock k - clock 0 := by omega
    have hsat := satInt64_ge (clock k - clock 0) (d * 1000000) hfit hdiff
    refine ⟨Int.tdiv (satInt64 (clock k - clock 0)) 1000000, ?_, by simp [payloadsOf]⟩
    have hnn : 0 ≤ satInt64 (clock k - clock 0) := by omega
    rw [Int.tdiv_eq_ediv hnn (by norm_num)]
    omega

/-- C6: the accepted duration 9223372036855 ms under a non-decreasing clock.  The
deadline offset `time.Duration(d)*time.Millisecond` wraps to a negative number of
nanoseconds, the busy loop is not entered, and the handler returns
`actual_duration_ms` = 0 with `requested_duration` = 9223372036855. -/
theorem C6_deadline_overflow :
    (∀ j k : Nat, j ≤ k → (fun n : Nat => (1000 * n : Int)) j ≤ (fun n : Nat => (1000 * n : Int)) k) ∧
    Atoi "9223372036855" = some 9223372036855 ∧
    millis 9223372036855 = -9223372036854551616 ∧
    CPUHandler (fun n : Nat => (1000 * n : Int)) 1
        ⟨"GET", "/cpu", [("duration", "9223372036855")], "", "", ""⟩
      = some ⟨[HEffect.log ⟨Level.info, "CPU spike triggered",
                [("duration_ms", FieldVal.int 9223372036855)]⟩,
               HEffect.write (Payload.cpu "CPU spike completed" 9223372036855 0 9223372036)],
              false⟩ := by
  refine ⟨?_, by decide, by decide, by decide⟩
  intro j k h
  simp only
  omega

/-! ## The active-connections gauge -/

theorem gaugeAfter_append (a b : List MEffect) :
    ∀ g : Int, gaugeAfter g (a ++ b) = gaugeAfter (gaugeAfter g a) b := by
  induction a with
  | nil => intro g; rfl
  | cons e rest ih =>
    intro g
    cases e <;> simp [gaugeAfter, ih]

theorem gaugeAfter_noGauge (l : List MEffect) (h : NoGauge l) :
    ∀ g : Int, gaugeAfter g l = g := by
  induction l with
  | nil => intro g; rfl
  | cons e rest ih =>
    intro g
    have he := h e (List.mem_cons_self _ _)
    have hr : NoGauge rest := fun x hx => h x (List.mem_cons_of_mem _ hx)
    cases e with
    | gaugeInc => exact absurd rfl he.1
    | gaugeDec => exact absurd rfl he.2
    | downstream e => simpa [gaugeAfter] using ih hr g
    | log rec => simpa [gaugeAfter] using ih hr g
    | counterInc l => simpa [gaugeAfter] using ih hr g
    | observe a b c => simpa [gaugeAfter] using ih hr g

theorem noGauge_take (l : List MEffect) (h : NoGauge l) (n : Nat) : NoGauge (l.take n) :=
  fun e he => h e (List.mem_of_mem_take he)

theorem trace_eq (next : Request → Run) (r : Request) (t0 t1 : Int) :
    (LoggingMiddleware next r t0 t1).trace
      = MEffect.gaugeInc :: (inner next r t0 t1 ++ [MEffect.gaugeDec]) := by
  unfold LoggingMiddleware inner recordedStatus
  cases hp : (next r).panicked <;> cases hv : labelsValid r.path r.method <;> simp [hp, hv]

theorem noGauge_inner (next : Request → Run) (r : Request) (t0 t1 : Int) :
    NoGauge (inner next r t0 t1) := by
  intro e he
  unfold inner at he
  cases hp : (next r).panicked <;> cases hv : labelsValid r.path r.method <;>
    simp [hp, hv] at he
  · rcases he with ⟨a, _, rfl⟩ | rfl <;> simp
  · rcases he with ⟨a, _, rfl⟩ | rfl | rfl | rfl <;> simp
  · rcases he with ⟨a, _, rfl⟩
    simp
  · rcases he with ⟨a, _, rfl⟩
    simp

theorem gauge_pass (next : Request → Run) (r : Request) (t0 t1 g : Int) :
    gaugeAfter g (LoggingMiddleware next r t0 t1).trace = g := by
  rw [trace_eq]
  simp only [gaugeAfter]
  rw [gaugeAfter_append, gaugeAfter_noGauge _ (noGauge_inner next r t0 t1)]
  simp [gaugeAfter]

theorem gauge_seq (rs : List Served) : ∀ g : Int, gaugeAfter g (seqTrace rs) = g := by
  induction rs with
  | nil => intro g; rfl
  | cons s rest ih =>
    intro g
    simp only [seqTrace]
    rw [gaugeAfter_append, gauge_pass, ih]

theorem gauge_partial (next : Request → Run) (r : Request) (t0 t1 g : Int) (n : Nat)
    (hn : n < (LoggingMiddleware next r t0 t1).trace.length) :
    gaugeAfter g ((LoggingMiddleware next r t0 t1).trace.take n)
      = g + inFlight ((LoggingMiddleware next r t0 t1).trace.take n) := by
  rw [trace_eq] at hn ⊢
  cases n with
  | zero => simp [gaugeAfter, inFlight]
  | succ k =>
    have hk : k ≤ (inner next r t0 t1).length := by
      simp only [List.length_cons, List.length_append, List.length_nil] at hn
      omega
    simp only [List.take_succ_cons, gaugeAfter, inFlight]
    rw [if_neg (List.cons_ne_nil _ _), List.take_append_of_le_length hk,
      gaugeAfter_noGauge _ (noGauge_take _ (noGauge_inner next r t0 t1) k)]

/-- C7: a pass through LoggingMiddleware is one gauge increment, then the downstream
handler's effects, then (when the handler returned) the outcome recording as far as it
gets, then one gauge decrement, whether the handler returns or panics; the gauge ends
at the value it started from; at every point of a sequential run started at 0 the gauge equals the
number of requests inside the middleware and is not negative, and it is 0 between
requests. -/
theorem C7_gauge_balanced (next : Request → Run) (r : Request) (t0 t1 g : Int) :
    (∃ post : List MEffect,
      (LoggingMiddleware next r t0 t1).trace
        = MEffect.gaugeInc ::
            ((next r).effects.map MEffect.downstream ++ post ++ [MEffect.gaugeDec]) ∧
      (∀ e ∈ post, e ≠ MEffect.gaugeInc ∧ e ≠ MEffect.gaugeDec ∧
        ∀ h : HEffect, e ≠ MEffect.downstream h)) ∧
    (LoggingMiddleware next r t0 t1).trace.count MEffect.gaugeInc = 1 ∧
    (LoggingMiddleware next r t0 t1).trace.count MEffect.gaugeDec = 1 ∧
    gaugeAfter g (LoggingMiddleware next r t0 t1).trace = g ∧
    (∀ (done : List Served) (n : Nat), n < (LoggingMiddleware next r t0 t1).trace.length →
      gaugeAfter 0 (seqTrace done ++ (LoggingMiddleware next r t0 t1).trace.take n)
        = inFlight ((LoggingMiddleware next r t0 t1).trace.take n) ∧
      0 ≤ gaugeAfter 0 (seqTrace done ++ (LoggingMiddleware next r t0 t1).trace.take n)) ∧
    (∀ done : List Served, gaugeAfter 0 (seqTrace done) = 0) := by
  refine ⟨?_, ?_, ?_, gauge_pass next r t0 t1 g, ?_, fun done => gauge_seq done 0⟩
  · unfold LoggingMiddleware
    cases hp : (next r).panicked
    · cases hv : labelsValid r.path r.method
      · refine ⟨[MEffect.log (requestRecord r
            (serveHTTP { statusCode := 200 } (next r).effects).statusCode
            (satInt64 (t1 - t0)))], by simp [hp, hv], ?_⟩
        intro e he
        simp at he
        subst he
        simp
      · refine ⟨[MEffect.log (requestRecord r
            (serveHTTP { statusCode := 200 } (next r).effects).statusCode
            (satInt64 (t1 - t0))),
          MEffect.counterInc (r.path, r.method,
            StatusText (serveHTTP { statusCode := 200 } (next r).effects).statusCode),
          MEffect.observe r.path r.method (satInt64 (t1 - t0))], by simp [hp, hv], ?_⟩
        intro e he
        simp at he
        rcases he with rfl | rfl | rfl <;> simp
    · exact ⟨[], by simp [hp], by simp⟩
  · rw [trace_eq]
    have h : (inner next r t0 t1).count MEffect.gaugeInc = 0 :=
      List.count_eq_zero.mpr (fun hm => (noGauge_inner next r t0 t1 _ hm).1 rfl)
    simp [List.count_cons, List.count_append, h]
  · rw [trace_eq]
    have h : (inner next r t0 t1).count MEffect.gaugeDec = 0 :=
      List.count_eq_zero.mpr (fun hm => (noGauge_inner next r t0 t1 _ hm).2 rfl)
    simp [List.count_cons, List.count_append, h]
  · intro done n hn
    have h : gaugeAfter 0 (seqTrace done ++ (LoggingMiddleware next r t0 t1).trace.take n)
        = inFlight ((LoggingMiddleware next r t0 t1).trace.take n) := by
      rw [gaugeAfter_append, gauge_seq, gauge_partial next r t0 t1 0 n hn]
      simp
    refine ⟨h, ?_⟩
    rw [h]
    unfold inFlight
    split <;> decide

/-- While the health handler of the second request of a run is writing, the gauge is 1. -/
theorem C7_gauge_balanced_witness :
    1 < (LoggingMiddleware (fun _ => ⟨[HEffect.writeHeader 200, HEffect.write Payload.raw], false⟩)
      ⟨"GET", "/health", [], "", "", ""⟩ 0 5).trace.length ∧
    gaugeAfter 0 (seqTrace [⟨fun _ => ⟨[], true⟩, ⟨"GET", "/x", [], "", "", ""⟩, 0, 1⟩] ++
      (LoggingMiddleware
        (fun _ => ⟨[HEffect.writeHeader 200, HEffect.write Payload.raw], false⟩)
        ⟨"GET", "/health", [], "", "", ""⟩ 0 5).trace.take 1) = 1 :=
  ⟨by decide,
   ((C7_gauge_balanced
      (fun _ => ⟨[HEffect.writeHeader 200, HEffect.write Payload.raw], false⟩)
      ⟨"GET", "/health", [], "", "", ""⟩ 0 5 0).2.2.2.2.1
      [⟨fun _ => ⟨[], true⟩, ⟨"GET", "/x", [], "", "", ""⟩, 0, 1⟩] 1 (by decide)).1⟩

/-! ## The request counter and the latency histogram -/

theorem countersAfter_append (a b : List MEffect) :
    ∀ c : Labels → Nat, countersAfter c (a ++ b) = countersAfter (countersAfter c a) b := by
  induction a with
  | nil => intro c; rfl
  | cons e rest ih =>
    intro c
    cases e <;> simp [countersAfter, ih]

theorem countersAfter_downstream (l : List HEffect) :
    ∀ c : Labels → Nat, countersAfter c (l.map MEffect.downstream) = c := by
  induction l with
  | nil => intro c; rfl
  | cons e rest ih => intro c; simpa [countersAfter] using ih c

theorem counterIncs_append (a b : List MEffect) :
    counterIncs (a ++ b) = counterIncs a ++ counterIncs b := by
  induction a with
  | nil => rfl
  | cons e rest ih => cases e <;> simp [counterIncs, ih]

theorem counterIncs_downstream (l : List HEffect) :
    counterIncs (l.map MEffect.downstream) = [] := by
  induction l with
  | nil => rfl
  | cons e rest ih => simpa [counterIncs] using ih

theorem observations_append (a b : List MEffect) :
    observations (a ++ b) = observations a ++ observations b := by
  induction a with
  | nil => rfl
  | cons e rest ih => cases e <;> simp [observations, ih]

theorem observations_downstream (l : List HEffect) :
    observations (l.map MEffect.downstream) = [] := by
  induction l with
  | nil => rfl
  | cons e rest ih => simpa [observations] using ih

theorem trace_returned (next : Request → Run) (r : Request) (t0 t1 : Int)
    (hret : (next r).panicked = false) (hv : labelsValid r.path r.method = true) :
    (LoggingMiddleware next r t0 t1).trace
      = MEffect.gaugeInc :: ((next r).effects.map MEffect.downstream ++
          [MEffect.log (requestRecord r (recordedStatus next r) (satInt64 (t1 - t0))),
           MEffect.counterInc (r.path, r.method, StatusText (recordedStatus next r)),
           MEffect.observe r.path r.method (satInt64 (t1 - t0)),
           MEffect.gaugeDec]) := by
  unfold LoggingMiddleware recordedStatus
  simp [hret, hv]

theorem counters_pass (next : Request → Run) (r : Request) (t0 t1 : Int)
    (c : Labels → Nat) (hret : (next r).panicked = false)
    (hv : labelsValid r.path r.method = true) (k : Labels) :
    countersAfter c (LoggingMiddleware next r t0 t1).trace k
      = if k = (r.path, r.method, StatusText (recordedStatus next r)) then c k + 1
        else c k := by
  rw [trace_returned next r t0 t1 hret hv]
  simp only [countersAfter]
  rw [countersAfter_append, countersAfter_downstream]
  simp only [countersAfter]

theorem counters_seq (p m : GoString) (code : Int) (hv : labelsValid p m = true)
    (rs : List Served) :
    ∀ c : Labels → Nat,
      (∀ x ∈ rs, (x.next x.r).panicked = false ∧ x.r.path = p ∧ x.r.method = m ∧
        recordedStatus x.next x.r = code) →
      countersAfter c (seqTrace rs) (p, m, StatusText code)
        = c (p, m, StatusText code) + rs.length := by
  induction rs with
  | nil => intro c _; rfl
  | cons s rest ih =>
    intro c h
    obtain ⟨hret, hp, hm, hc⟩ := h s (List.mem_cons_self _ _)
    have hvs : labelsValid s.r.path s.r.method = true := by rw [hp, hm]; exact hv
    simp only [seqTrace]
    rw [countersAfter_append, ih _ (fun x hx => h x (List.mem_cons_of_mem _ hx)),
      counters_pass s.next s.r s.t0 s.t1 c hret hvs, hp, hm, hc]
    simp only [if_true, List.length_cons]
    omega

/-- C8 (amended): when the request's path and method are valid UTF-8 and the downstream
handler returns normally, the middleware makes exactly one HTTPRequestsTotal increment,
for the triple (path, method, StatusText of the recorded status), every other triple
keeps its value, and exactly one HTTPRequestDuration observation is made under
(path, method); K such requests with the same path, method and recorded status raise
that triple by K. -/
theorem C8_counter_frame (next : Request → Run) (r : Request) (t0 t1 : Int)
    (c : Labels → Nat) (hret : (next r).panicked = false)
    (hv : labelsValid r.path r.method = true) :
    counterIncs (LoggingMiddleware next r t0 t1).trace
      = [(r.path, r.method, StatusText (recordedStatus next r))] ∧
    (∀ k : Labels, countersAfter c (LoggingMiddleware next r t0 t1).trace k
      = if k = (r.path, r.method, StatusText (recordedStatus next r)) then c k + 1
        else c k) ∧
    (∃ ns : Int, observations (LoggingMiddleware next r t0 t1).trace
      = [(r.path, r.method, ns)]) ∧
    (∀ rs : List Served,
      (∀ x ∈ rs, (x.next x.r).panicked = false ∧ x.r.path = r.path ∧
        x.r.method = r.method ∧ recordedStatus x.next x.r = recordedStatus next r) →
      countersAfter c (seqTrace rs) (r.path, r.method, StatusText (recordedStatus next r))
        = c (r.path, r.method, StatusText (recordedStatus next r)) + rs.length) := by
  refine ⟨?_, counters_pass next r t0 t1 c hret hv, ⟨satInt64 (t1 - t0), ?_⟩,
    fun rs h => counters_seq r.path r.method (recordedStatus next r) hv rs c h⟩
  · rw [trace_returned next r t0 t1 hret hv]
    simp only [counterIncs]
    rw [counterIncs_append, counterIncs_downstream]
    simp [counterIncs]
  · rw [trace_returned next r t0 t1 hret hv]
    simp only [observations]
    rw [observations_append, observations_downstream]
    simp [observations]

/-- A health request that returns normally raises one counter by one, and two of them
raise it by two. -/
theorem C8_counter_frame_witness :
    (counterIncs (LoggingMiddleware
        (fun _ => ⟨[HEffect.writeHeader 200, HEffect.write Payload.raw], false⟩)
        ⟨"GET", "/health", [], "", "", ""⟩ 0 5).trace
      = [(GoString.ofString "/health", GoString.ofString "GET", "OK")] ∧
    countersAfter (fun _ => 3) (LoggingMiddleware
        (fun _ => ⟨[HEffect.writeHeader 200, HEffect.write Payload.raw], false⟩)
        ⟨"GET", "/health", [], "", "", ""⟩ 0 5).trace
        (GoString.ofString "/health", GoString.ofString "GET", "OK") = 4) ∧
    countersAfter (fun _ => 3)
        (seqTrace
          [⟨fun _ => ⟨[HEffect.writeHeader 200, HEffect.write Payload.raw], false⟩,
            ⟨"GET", "/health", [], "", "", ""⟩, 0, 5⟩,
           ⟨fun _ => ⟨[HEffect.write Payload.raw], false⟩,
            ⟨"GET", "/health", [], "", "a", "b"⟩, 7, 9⟩])
        (GoString.ofString "/health", GoString.ofString "GET", "OK") = 3 + 2 :=
  have h := C8_counter_frame
    (fun _ => ⟨[HEffect.writeHeader 200, HEffect.write Payload.raw], false⟩)
    ⟨"GET", "/health", [], "", "", ""⟩ 0 5 (fun _ => 3) rfl (by decide)
  ⟨⟨h.1, h.2.1 (GoString.ofString "/health", GoString.ofString "GET", "OK")⟩,
   h.2.2.2 _ (by decide)⟩

/-- C8 as stated fails: the request `GET /%ff`, whose decoded path is the two bytes
`/` and 0xFF, served by a handler that answers 404 and returns normally.  The path is
not valid UTF-8, `WithLabelValues` panics after the `HTTP request` record has been
written, and the pass makes no HTTPRequestsTotal increment and no HTTPRequestDuration
observation: every counter keeps its value. -/
theorem C8_invalid_path_counterexample :
    ((fun _ => ⟨httpError "404 page not found" 404, false⟩ : Request → Run)
      ⟨"GET", ⟨[47, 255]⟩, [], "", "", ""⟩).panicked = false ∧
    labelsValid ⟨[47, 255]⟩ (GoString.ofString "GET") = false ∧
    LoggingMiddleware (fun _ => ⟨httpError "404 page not found" 404, false⟩)
        ⟨"GET", ⟨[47, 255]⟩, [], "", "", ""⟩ 0 5
      = ⟨[MEffect.gaugeInc,
          MEffect.downstream (HEffect.writeHeader 404),
          MEffect.downstream (HEffect.write (Payload.text "404 page not found")),
          MEffect.log (requestRecord ⟨"GET", ⟨[47, 255]⟩, [], "", "", ""⟩ 404 5),
          MEffect.gaugeDec], true⟩ ∧
    counterIncs (LoggingMiddleware (fun _ => ⟨httpError "404 page not found" 404, false⟩)
        ⟨"GET", ⟨[47, 255]⟩, [], "", "", ""⟩ 0 5).trace = [] ∧
    observations (LoggingMiddleware (fun _ => ⟨httpError "404 page not found" 404, false⟩)
        ⟨"GET", ⟨[47, 255]⟩, [], "", "", ""⟩ 0 5).trace = [] ∧
    countersAfter (fun _ => 3)
        (LoggingMiddleware (fun _ => ⟨httpError "404 page not found" 404, false⟩)
          ⟨"GET", ⟨[47, 255]⟩, [], "", "", ""⟩ 0 5).trace
        (⟨[47, 255]⟩, GoString.ofString "GET", "Not Found") = 3 := by
  decide

/-! ## The log-ingress handler -/

/-- C9: when the body decodes, LogHandler answers 200 with status "logged" and the
request's message, or "empty log message" when the message is empty, whatever the
level, and hands the logger exactly one record with that message (an empty level is
logged as "info"); when the body does not decode it answers 400 and logs nothing. -/
theorem C9_log_handler (decode : String → Option LogRequest) (r : Request) :
    (∀ req : LogRequest, decode r.body = some req →
      sentStatus (LogHandler decode r) = some 200 ∧
      payloadsOf (LogHandler decode r).effects
        = [Payload.log "logged"
            (if req.Message = "" then "empty log message" else req.Message)] ∧
      ∃ rec : LogRecord, logsOf (LogHandler decode r).effects = [rec] ∧
        rec.msg = (if req.Message = "" then "empty log message" else req.Message) ∧
        rec = emitAtLevel (if req.Level = "" then "info" else req.Level) rec.msg) ∧
    (decode r.body = none →
      sentStatus (LogHandler decode r) = some 400 ∧
      logsOf (LogHandler decode r).effects = []) := by
  constructor
  · intro req h
    have hmsg : ∀ l m : String, (emitAtLevel l m).msg = m := by
      intro l m
      unfold emitAtLevel
      split_ifs <;> rfl
    simp [LogHandler, h, sentStatus, wireStatus, payloadsOf, logsOf, hmsg]
  · intro h
    simp [LogHandler, h, sentStatus, wireStatus, httpError, logsOf]

/-- The two bodies of the specification: a warning with message "x", and a body that
does not decode. -/
theorem C9_log_handler_witness :
    (sentStatus (LogHandler (fun _ => some ⟨"warn", "x"⟩)
        ⟨"POST", "/log", [], "b", "", ""⟩) = some 200 ∧
      payloadsOf (LogHandler (fun _ => some ⟨"warn", "x"⟩)
        ⟨"POST", "/log", [], "b", "", ""⟩).effects = [Payload.log "logged" "x"]) ∧
    (sentStatus (LogHandler (fun _ => none) ⟨"POST", "/log", [], "b", "", ""⟩) = some 400 ∧
      logsOf (LogHandler (fun _ => none) ⟨"POST", "/log", [], "b", "", ""⟩).effects = []) :=
  have h := (C9_log_handler (fun _ => some ⟨"warn", "x"⟩)
    ⟨"POST", "/log", [], "b", "", ""⟩).1 ⟨"warn", "x"⟩ rfl
  ⟨⟨h.1, h.2.1⟩,
   (C9_log_handler (fun _ => none) ⟨"POST", "/log", [], "b", "", ""⟩).2 rfl⟩

/-! ## Unsynchronised appends -/

/-- C10: two accepted LeakHandler calls whose loads of `leakedMemory` both precede
their stores.  Both calls finish and both report `total_leaks` = old length + 1, but
the accumulator has grown by one buffer only: the buffer of the first call is lost. -/
theorem C10_lost_append (L : List (List Nat)) (b0 b1 : List Nat) :
    runSchedule [0, 1, 0, 1, 0, 1, 0, 1]
        ⟨L, [⟨b0, LeakPc.atAppend⟩, ⟨b1, LeakPc.atAppend⟩]⟩
      = ⟨L ++ [b1], [⟨b0, LeakPc.done (L.length + 1) (L.length + 1)⟩,
                     ⟨b1, LeakPc.done (L.length + 1) (L.length + 1)⟩]⟩ ∧
    (runSchedule [0, 1, 0, 1, 0, 1, 0, 1]
        ⟨L, [⟨b0, LeakPc.atAppend⟩, ⟨b1, LeakPc.atAppend⟩]⟩).leakedMemory.length
      ≠ L.length + 2 := by
  constructor
  · simp [runSchedule, stepShared, stepCall]
  · simp [runSchedule, stepShared, stepCall]

/-! ## Supporting facts: default status, panic path, in-range arithmetic -/

theorem serveHTTP_no_writeHeader (l : List HEffect) (h : ∀ c : Int, HEffect.writeHeader c ∉ l) :
    ∀ rw : responseWriter, serveHTTP rw l = rw := by
  induction l with
  | nil => intro rw; rfl
  | cons e rest ih =>
    intro rw
    have hr : ∀ c : Int, HEffect.writeHeader c ∉ rest :=
      fun c hc => h c (List.mem_cons_of_mem _ hc)
    cases e with
    | writeHeader c => exact absurd (List.mem_cons_self _ _) (h c)
    | write p => simpa [serveHTTP] using ih hr rw
    | sleep ns => simpa [serveHTTP] using ih hr rw
    | log rec => simpa [serveHTTP] using ih hr rw

theorem wireStatus_no_writeHeader (l : List HEffect) (h : ∀ c : Int, HEffect.writeHeader c ∉ l) :
    wireStatus l = none ∨ wireStatus l = some 200 := by
  induction l with
  | nil => exact Or.inl rfl
  | cons e rest ih =>
    have hr : ∀ c : Int, HEffect.writeHeader c ∉ rest :=
      fun c hc => h c (List.mem_cons_of_mem _ hc)
    cases e with
    | writeHeader c => exact absurd (List.mem_cons_self _ _) (h c)
    | write p => exact Or.inr rfl
    | sleep ns => simpa [wireStatus] using ih hr
    | log rec => simpa [wireStatus] using ih hr

theorem forwarded_trace (next : Request → Run) (r : Request) (t0 t1 : Int) :
    forwarded (LoggingMiddleware next r t0 t1).trace = (next r).effects := by
  have hmap : ∀ l : List HEffect, ∀ tail : List MEffect,
      forwarded (l.map MEffect.downstream ++ tail) = l ++ forwarded tail := by
    intro l tail
    induction l with
    | nil => rfl
    | cons e rest ih => simp [forwarded, ih]
  unfold LoggingMiddleware
  cases hp : (next r).panicked <;> cases hv : labelsValid r.path r.method <;>
    simp [hp, hv, forwarded, hmap]

/-- A handler that returns without ever calling `WriteHeader` is recorded with 200, the
status the client receives (the labels being valid, the middleware returns too). -/
theorem recorded_default (next : Request → Run) (r : Request) (t0 t1 : Int)
    (h : ∀ c : Int, HEffect.writeHeader c ∉ (next r).effects)
    (hret : (next r).panicked = false) (hv : labelsValid r.path r.method = true) :
    recordedStatus next r = 200 ∧
    clientStatus (LoggingMiddleware next r t0 t1) = some 200 := by
  constructor
  · unfold recordedStatus
    rw [serveHTTP_no_writeHeader _ h]
  · unfold clientStatus sentStatus
    have hp : (LoggingMiddleware next r t0 t1).panicked = false := by
      unfold LoggingMiddleware
      simp [hret, hv]
    simp only [forwarded_trace, hp]
    rcases wireStatus_no_writeHeader _ h with h0 | h0 <;> simp [h0]

theorem recorded_default_example :
    recordedStatus (fun r => SlowHandler r) ⟨"GET", "/slow", [], "", "", ""⟩ = 200 ∧
    clientStatus (LoggingMiddleware (fun r => SlowHandler r)
      ⟨"GET", "/slow", [], "", "", ""⟩ 0 1000000000) = some 200 :=
  recorded_default (fun r => SlowHandler r) ⟨"GET", "/slow", [], "", "", ""⟩ 0 1000000000
    (fun c hc => by
      have he : (SlowHandler ⟨"GET", "/slow", [], "", "", ""⟩).effects
          = [HEffect.sleep 1000000000,
             HEffect.write (Payload.slow "slow endpoint completed" 1000 1000)] := by decide
      simp [he] at hc)
    (by decide) (by decide)

/-- When the downstream handler panics, the pass consists of the gauge increment, the
handler's effects and the deferred gauge decrement. -/
theorem panic_trace (next : Request → Run) (r : Request) (t0 t1 : Int)
    (hp : (next r).panicked = true) :
    LoggingMiddleware next r t0 t1
      = ⟨MEffect.gaugeInc :: ((next r).effects.map MEffect.downstream ++ [MEffect.gaugeDec]),
         true⟩ := by
  unfold LoggingMiddleware
  simp [hp]

theorem panic_trace_example :
    LoggingMiddleware (fun _ => ⟨[HEffect.write Payload.raw], true⟩)
        ⟨"GET", "/x", [], "", "", ""⟩ 0 1
      = ⟨[MEffect.gaugeInc, MEffect.downstream (HEffect.write Payload.raw), MEffect.gaugeDec],
         true⟩ :=
  panic_trace (fun _ => ⟨[HEffect.write Payload.raw], true⟩) ⟨"GET", "/x", [], "", "", ""⟩ 0 1
    rfl

theorem leak_buffer_length_inRange_example :
    (LeakHandler 4096 ⟨0, 0, 0, 0⟩ ⟨"GET", "/leak", [("size", "1")], "", "", ""⟩ []).2
      = [] ++ [fillBytes (1024 * 1)] :=
  leak_buffer_length_inRange 4096 ⟨0, 0, 0, 0⟩ ⟨"GET", "/leak", [("size", "1")], "", "", ""⟩ []
    1 (by decide) (by decide) (by decide)

theorem cpu_elapsed_inRange_example :
    ∃ elapsed : Int, (7 : Int) ≤ elapsed ∧
      payloadsOf [HEffect.log ⟨Level.info, "CPU spike triggered",
                    [("duration_ms", FieldVal.int 7)]⟩,
                  HEffect.write (Payload.cpu "CPU spike completed" 7 8 0)]
        = [Payload.cpu "CPU spike completed" 7 elapsed (Int.tdiv 7 1000)] :=
  cpu_elapsed_inRange (fun k : Nat => (1000000 * k : Int)) 50
    ⟨"GET", "/cpu", [("duration", "7")], "", "", ""⟩ 7
    ⟨[HEffect.log ⟨Level.info, "CPU spike triggered", [("duration_ms", FieldVal.int 7)]⟩,
      HEffect.write (Payload.cpu "CPU spike completed" 7 8 0)], false⟩
    (fun j k h => by simp only; omega) (by decide) (by decide) (by decide) (by decide)

end EKS
